import Mathlib

/-!
Verification of the protocol/session core of the IntelliCenter integration,
a shallow embedding of `custom_components/intellicenter/pyintellicenter/protocol.py`.

Conventions of the embedding:
* Python strings become `String` (for JSON keys and commands) or `List Char`
  (for the framer's byte/character buffer, where we induct on characters).
* Event-loop times become `Nat` time units.  Python's `now - t > limit` on
  floats agrees with truncated `Nat` subtraction because the limits are positive.
* Python truthiness of a float timestamp (`if self._last_keepalive_sent:`)
  becomes `t ≠ 0` on the `some` case of an `Option Nat`.
* A `json.dumps`-serialized outbound packet is represented by the dict being
  serialized (an association list in insertion order); `json.dumps` is injective
  on these dicts, so "the messageID placed in the serialized envelope" is the
  value of the "messageID" key of that association list.
* Calls to `self._transport.write` are logged in the `written` field,
  `transport.close()` sets `transportClosing` and bumps `closeCount`, and the
  observable calls made by `processMessage` (flow-control release, handing the
  message to the controller) are logged in the `events` field.
-/

/-- JSON values as produced by `json.loads` (Python: dict / list / str / number
/ bool / None). -/
inductive JValue where
  | jStr (s : String)
  | jNum (n : Int)
  | jBool (b : Bool)
  | jNull
  | jArr (elts : List JValue)
  | jObj (fields : List (String × JValue))

/-- An outbound packet: the dict passed to `json.dumps` in `sendCmd`, in
insertion order. -/
abbrev Packet := List (String × JValue)

/-- Lookup of a key in a Python dict represented as an association list. -/
def lookupKey (d : List (String × JValue)) (k : String) : Option JValue :=
  match d with
  | [] => none
  | (k', v) :: rest => if k' = k then some v else lookupKey rest k

/-- One step of Python `dict.update`: assigning key `kv.1` replaces an existing
entry in place, otherwise appends at the end (dict insertion order). -/
def insertKV : List (String × JValue) → String × JValue → List (String × JValue)
  | [], kv => [kv]
  | (k, v) :: rest, kv =>
    if k = kv.1 then (k, kv.2) :: rest else (k, v) :: insertKV rest kv

/-- Python `d.update(e)`: assign every key/value pair of `e`, in order. -/
def dictUpdate (d e : List (String × JValue)) : List (String × JValue) :=
  e.foldl insertKV d

/-- Observable calls made by `processMessage`: a flow-control release
(`self.responseReceived()`) and the hand-off to the controller
(`self._controller.receivedMessage(msg_id, command, response, msg)`). -/
inductive PEvent where
  | flowRelease
  | received (mid : JValue) (cmd : JValue) (resp : Option JValue)

/-- The mutable state of an `ICProtocol` instance after `connection_made`,
restricted to the fields the protocol logic reads or writes, plus the
observation logs (`written`, `events`, `closeCount`). -/
structure ProtoState where
  /-- `self._msgID`: counter used to generate messageIDs. -/
  msgID : Nat
  /-- `self._out_pending`: flow-control in-flight counter (a Python int). -/
  out_pending : Int
  /-- `self._out_queue`: FIFO queue of requests, head = next to transmit. -/
  out_queue : List Packet
  /-- `self._last_flow_control_activity` (None before `connection_made`). -/
  last_flow_control_activity : Option Nat
  /-- `self._last_data_received`. -/
  last_data_received : Option Nat
  /-- `self._last_keepalive_sent`. -/
  last_keepalive_sent : Option Nat
  /-- Log of the requests written to the transport, in write order. -/
  written : List Packet
  /-- Log of the observable `processMessage` calls. -/
  events : List PEvent
  /-- Whether `self._transport.is_closing()` holds (set by `transport.close()`). -/
  transportClosing : Bool
  /-- Number of `transport.close()` calls performed so far. -/
  closeCount : Nat

/-- The state right after `connection_made` ran at time `t` on a freshly
constructed protocol: `__init__` sets `_msgID = 1`, `_out_pending = 0`, an
empty queue, and `connection_made` stamps all three timestamps with the
current time. -/
def connState (t : Nat) : ProtoState :=
  { msgID := 1
    out_pending := 0
    out_queue := []
    last_flow_control_activity := some t
    last_data_received := some t
    last_keepalive_sent := some t
    written := []
    events := []
    transportClosing := false
    closeCount := 0 }

/-- The reset part of `connection_made`, applied to an existing protocol
object at time `t`: stores the (fresh, open) transport, resets `_msgID` to 1
and stamps the three activity timestamps. -/
def connection_made (t : Nat) (s : ProtoState) : ProtoState :=
  { s with
    msgID := 1
    last_flow_control_activity := some t
    last_data_received := some t
    last_keepalive_sent := some t
    transportClosing := false }

/-- `self._writeToTransport(request)`: writes the request to the transport. -/
def writeToTransport (request : Packet) (s : ProtoState) : ProtoState :=
  { s with written := s.written ++ [request] }

/-- `transport.close()`. -/
def closeTransport (s : ProtoState) : ProtoState :=
  { s with transportClosing := true, closeCount := s.closeCount + 1 }

/-- `ICProtocol.sendRequest` at time `now`: if nothing is pending, write the
request to the transport, otherwise queue it; either way count it as pending
and record flow-control activity. -/
def sendRequest (request : Packet) (now : Nat) (s : ProtoState) : ProtoState :=
  let s :=
    if s.out_pending = 0 then writeToTransport request s
    else { s with out_queue := s.out_queue ++ [request] }
  { s with
    out_pending := s.out_pending + 1
    last_flow_control_activity := some now }

/-- `ICProtocol.responseReceived` at time `now`: if the queue is non-empty,
write its head to the transport; decrement the pending counter if it is
truthy (non-zero); record flow-control activity.  The `flowRelease` event
logs that this method ran. -/
def responseReceived (now : Nat) (s : ProtoState) : ProtoState :=
  let s :=
    match s.out_queue with
    | [] => s
    | request :: rest => writeToTransport request { s with out_queue := rest }
  let s :=
    if s.out_pending ≠ 0 then { s with out_pending := s.out_pending - 1 } else s
  { s with
    last_flow_control_activity := some now
    events := s.events ++ [PEvent.flowRelease] }

/-- The dict built by `ICProtocol.sendCmd` before serialization:
`{"messageID": str(self._msgID), "command": cmd}` updated with `extra`
(Python `if extra:` is false for `None` and for an empty dict, both
represented here by `[]`). -/
def sendCmdPacket (cmd : String) (extra : List (String × JValue)) (s : ProtoState) :
    Packet :=
  let d := [("messageID", JValue.jStr (toString s.msgID)), ("command", JValue.jStr cmd)]
  if extra.isEmpty then d else dictUpdate d extra

/-- `ICProtocol.sendCmd` at time `now`: build the envelope, bump the counter,
send the packet through `sendRequest`, and return the generated msg id. -/
def sendCmd (cmd : String) (extra : List (String × JValue)) (now : Nat)
    (s : ProtoState) : ProtoState × String :=
  let msg_id := toString s.msgID
  let packet := sendCmdPacket cmd extra s
  let s := { s with msgID := s.msgID + 1 }
  (sendRequest packet now s, msg_id)

/-! ### Health monitor (`_heartbeat_loop`) -/

/-- `HEARTBEAT_INTERVAL = 30`. -/
def HEARTBEAT_INTERVAL : Nat := 30

/-- `FLOW_CONTROL_TIMEOUT = 45`. -/
def FLOW_CONTROL_TIMEOUT : Nat := 45

/-- `KEEPALIVE_INTERVAL = 90`. -/
def KEEPALIVE_INTERVAL : Nat := 90

/-- `CONNECTION_IDLE_TIMEOUT = 300`. -/
def CONNECTION_IDLE_TIMEOUT : Nat := 300

/-- The `extra` dict of the keepalive query sent by the heartbeat loop:
`{"condition": "OBJTYP=SYSTEM", "objectList": [{"objnam": "INCR", "keys": ["MODE"]}]}`. -/
def keepaliveExtra : List (String × JValue) :=
  [ ("condition", JValue.jStr "OBJTYP=SYSTEM")
  , ("objectList", JValue.jArr
      [JValue.jObj [("objnam", JValue.jStr "INCR"), ("keys", JValue.jArr [JValue.jStr "MODE"])]]) ]

/-- Keepalive block of one `_heartbeat_loop` iteration: if the keepalive
timestamp is truthy and more than `KEEPALIVE_INTERVAL` old, send the
keepalive query through `sendCmd` and stamp the keepalive timestamp. -/
def keepaliveCheck (now : Nat) (s : ProtoState) : ProtoState :=
  match s.last_keepalive_sent with
  | none => s
  | some t =>
    if t ≠ 0 ∧ now - t > KEEPALIVE_INTERVAL then
      { (sendCmd "GetParamList" keepaliveExtra now s).1 with last_keepalive_sent := some now }
    else s

/-- Flow-control deadlock block of one `_heartbeat_loop` iteration: if the
activity timestamp is truthy, requests are pending, and no flow-control
activity happened for more than `FLOW_CONTROL_TIMEOUT`, reset the pending
counter to 0 and drain the queue without transmitting. -/
def deadlockCheck (now : Nat) (s : ProtoState) : ProtoState :=
  match s.last_flow_control_activity with
  | none => s
  | some t =>
    if t ≠ 0 ∧ s.out_pending > 0 ∧ now - t > FLOW_CONTROL_TIMEOUT then
      { s with out_pending := 0, out_queue := [] }
    else s

/-- Idle block of one `_heartbeat_loop` iteration: if the data timestamp is
truthy and no data arrived for more than `CONNECTION_IDLE_TIMEOUT`, close the
transport and break out of the loop (second component `true`). -/
def idleCheck (now : Nat) (s : ProtoState) : ProtoState × Bool :=
  match s.last_data_received with
  | none => (s, false)
  | some t =>
    if t ≠ 0 ∧ now - t > CONNECTION_IDLE_TIMEOUT then (closeTransport s, true)
    else (s, false)

/-- One iteration of the `while True` body of `_heartbeat_loop`, woken at time
`now`: break immediately if the transport is closing, otherwise run the
keepalive, deadlock and idle blocks in order.  The Bool is `true` when the
iteration executed `break`. -/
def heartbeatTick (now : Nat) (s : ProtoState) : ProtoState × Bool :=
  if s.transportClosing then (s, true)
  else idleCheck now (deadlockCheck now (keepaliveCheck now s))

/-- The `_heartbeat_loop` waking at the given successive times, from state `s`:
runs `heartbeatTick` on each time in order, stopping at the first `break`. -/
def heartbeatRun (s : ProtoState) : List Nat → ProtoState
  | [] => s
  | t :: ts =>
    let (s', brk) := heartbeatTick t s
    if brk then s' else heartbeatRun s' ts

/-! ### Message processing (`processMessage`) -/

/-- Outcome of `json.loads` on the incoming line: either a
`json.JSONDecodeError` or a JSON value. -/
inductive ParseResult where
  | jsonError
  | value (v : JValue)

/-- Exception classes relevant to `processMessage`'s handlers. -/
inductive PyErr where
  | keyError
  | typeError

/-- Python subscript `v[k]` on a `json.loads` result: a dict either yields the
value or raises `KeyError`; any non-dict value raises `TypeError`. -/
def pyGetItem (v : JValue) (k : String) : Except PyErr JValue :=
  match v with
  | JValue.jObj fields =>
    match lookupKey fields k with
    | some x => Except.ok x
    | none => Except.error PyErr.keyError
  | _ => Except.error PyErr.typeError

/-- Python `msg.get(k)` on a dict (only reached once `msg["messageID"]`
succeeded, so `v` is a dict there). -/
def dictGet (v : JValue) (k : String) : Option JValue :=
  match v with
  | JValue.jObj fields => lookupKey fields k
  | _ => none

/-- Python truthiness of `response` (which is `None` when the key is absent or
its value is JSON `null`). -/
def pyTruthy : Option JValue → Bool
  | none => false
  | some (JValue.jStr s) => !s.isEmpty
  | some (JValue.jNum n) => n ≠ 0
  | some (JValue.jBool b) => b
  | some JValue.jNull => false
  | some (JValue.jArr elts) => !elts.isEmpty
  | some (JValue.jObj fields) => !fields.isEmpty

/-- Behavior of the external `controller.receivedMessage` callback: return
normally, or raise an exception of the given class. -/
inductive CtrlBehavior where
  | ok
  | raiseJsonDecodeError
  | raiseKeyError
  | raiseOther

/-- `ICProtocol.processMessage` at time `now`, with the incoming line
represented by its `json.loads` outcome `pr` and the controller callback
behavior by `ctrl`.  The `try` body reads `msg["messageID"]`,
`msg["command"]`, `msg.get("response")`, calls `responseReceived` when the
response is truthy, then hands the message to the controller.
`except json.JSONDecodeError` and `except KeyError` log and drop (these also
catch such exceptions raised by the controller); `except Exception` closes
the transport. -/
def processMessage (pr : ParseResult) (ctrl : CtrlBehavior) (now : Nat)
    (s : ProtoState) : ProtoState :=
  match pr with
  | ParseResult.jsonError => s
  | ParseResult.value v =>
    match pyGetItem v "messageID" with
    | Except.error PyErr.keyError => s
    | Except.error PyErr.typeError => closeTransport s
    | Except.ok mid =>
      match pyGetItem v "command" with
      | Except.error PyErr.keyError => s
      | Except.error PyErr.typeError => closeTransport s
      | Except.ok cmd =>
        let response := dictGet v "response"
        let s := if pyTruthy response then responseReceived now s else s
        let s := { s with events := s.events ++ [PEvent.received mid cmd response] }
        match ctrl with
        | CtrlBehavior.ok => s
        | CtrlBehavior.raiseJsonDecodeError => s
        | CtrlBehavior.raiseKeyError => s
        | CtrlBehavior.raiseOther => closeTransport s

/-! ### Framer (`data_received`) -/

/-- Prepend a character to the first piece of a split result (helper for
`splitRN`; the empty case never occurs since `splitRN` returns at least one
piece). -/
def consHead (c : Char) : List (List Char) → List (List Char)
  | [] => [[c]]
  | h :: t => (c :: h) :: t

/-- Python `str.split(buffer, "\r\n")`: split on each leftmost non-overlapping
occurrence of the two-character terminator, keeping empty pieces. -/
def splitRN : List Char → List (List Char)
  | [] => [[]]
  | [c] => [[c]]
  | c₁ :: c₂ :: rest =>
    if c₁ = '\r' ∧ c₂ = '\n' then [] :: splitRN rest
    else consHead c₁ (splitRN (c₂ :: rest))

/-- Python `buffer.endswith("\r\n")`: the last two characters are `'\r'`
then `'\n'` (false on shorter buffers). -/
def endsWithRN (l : List Char) : Bool :=
  match l.reverse with
  | c₁ :: c₂ :: _ => c₁ == '\n' && c₂ == '\r'
  | _ => false

/-- The non-empty lines of a flushed buffer, in order: `data_received` runs
`processMessage(line)` for each truthy (non-empty) line of the split. -/
def nonEmptyLines (l : List Char) : List (List Char) :=
  (splitRN l).filter (fun line => !line.isEmpty)

/-- The framing part of `ICProtocol.data_received`: append the decoded chunk
to `self._lineBuffer`; if the buffer does not end with the terminator, keep
waiting; otherwise split the buffer, reset it, and process each non-empty
line.  Returns the new buffer and the lines passed to `processMessage`, in
order. -/
def data_received (buf data : List Char) : List Char × List (List Char) :=
  let b := buf ++ data
  if endsWithRN b then ([], nonEmptyLines b) else (b, [])

/-- Deliver a sequence of chunks to `data_received` in order, collecting all
lines passed to `processMessage`. -/
def feedChunks (buf : List Char) : List (List Char) → List Char × List (List Char)
  | [] => (buf, [])
  | c :: cs =>
    let (b₁, out₁) := data_received buf c
    let (b₂, out₂) := feedChunks b₁ cs
    (b₂, out₁ ++ out₂)

/-! ### Call traces -/

/-- A flow-control call: `sendRequest(r)` or `responseReceived()` at a given
event-loop time. -/
inductive FlowOp where
  | send (r : Packet) (t : Nat)
  | resp (t : Nat)

/-- Apply one flow-control call. -/
def flowStep (s : ProtoState) : FlowOp → ProtoState
  | FlowOp.send r t => sendRequest r t s
  | FlowOp.resp t => responseReceived t s

/-- Run a sequence of flow-control calls in order. -/
def runFlow (s : ProtoState) : List FlowOp → ProtoState
  | [] => s
  | op :: ops => runFlow (flowStep s op) ops

/-- The requests submitted by a trace, in submission order. -/
def sendsOf : List FlowOp → List Packet
  | [] => []
  | FlowOp.send r _ :: ops => r :: sendsOf ops
  | FlowOp.resp _ :: ops => sendsOf ops

/-- A call that can touch the flow-control counter: `sendRequest`,
`responseReceived`, or one heartbeat iteration. -/
inductive FullOp where
  | send (r : Packet) (t : Nat)
  | resp (t : Nat)
  | tick (t : Nat)

/-- Apply one such call (a heartbeat iteration contributes its state part). -/
def fullStep (s : ProtoState) : FullOp → ProtoState
  | FullOp.send r t => sendRequest r t s
  | FullOp.resp t => responseReceived t s
  | FullOp.tick t => (heartbeatTick t s).1

/-- Run a sequence of such calls in order. -/
def runFull (s : ProtoState) : List FullOp → ProtoState
  | [] => s
  | op :: ops => runFull (fullStep s op) ops

/-- N successive `sendRequest` calls (request, time) with no interleaving. -/
def sendMany (s : ProtoState) : List (Packet × Nat) → ProtoState
  | [] => s
  | (r, t) :: rest => sendMany (sendRequest r t s) rest

/-- N successive `responseReceived` calls at the given times. -/
def respMany (s : ProtoState) : List Nat → ProtoState
  | [] => s
  | t :: rest => respMany (responseReceived t s) rest

/-- N successive `sendCmd` calls (command, extra, time), collecting the
returned msg ids in order. -/
def sendCmds (s : ProtoState) : List (String × List (String × JValue) × Nat) →
    ProtoState × List String
  | [] => (s, [])
  | (c, e, t) :: rest =>
    let r₁ := sendCmd c e t s
    let r₂ := sendCmds r₁.1 rest
    (r₂.1, r₁.2 :: r₂.2)

/-- Whether a JSON value is an object (a Python dict). -/
def isJObj : JValue → Bool
  | JValue.jObj _ => true
  | _ => false

/-- A post-connection state (connected at time 10) with one request stuck in
flight, one request queued, stale flow-control activity (time 20), recent
data (time 100), and the last keepalive sent at connection time 10. -/
def preemptedState : ProtoState :=
  { connState 10 with
    out_pending := 1
    out_queue := [[("messageID", JValue.jStr "2"), ("command", JValue.jStr "GetQuery")]]
    last_flow_control_activity := some 20
    last_data_received := some 100 }

/-- A post-connection state like `preemptedState` but whose last keepalive
was sent recently (time 60), so no keepalive is due at time 111. -/
def deadlockedState : ProtoState :=
  { preemptedState with last_keepalive_sent := some 60 }

/-! ## Theorems

### Framer lemmas -/

/-- The split of a buffer always has at least one piece. -/
theorem splitRN_ne_nil : ∀ l, splitRN l ≠ [] := by
  intro l
  induction l using splitRN.induct with
  | case1 => simp [splitRN]
  | case2 c => simp [splitRN]
  | case3 c₁ c₂ rest h ih => simp [splitRN, h]
  | case4 c₁ c₂ rest h ih =>
    simp only [splitRN, if_neg h]
    cases hs : splitRN (c₂ :: rest) with
    | nil => exact absurd hs ih
    | cons a b => simp [consHead]

/-- Splitting a buffer that starts with the terminator. -/
theorem splitRN_cons_rn (l : List Char) : splitRN ('\r' :: '\n' :: l) = [] :: splitRN l := by
  simp [splitRN]

/-- Splitting a buffer whose first two characters are not the terminator. -/
theorem splitRN_cons_other (c₁ c₂ : Char) (l : List Char) (h : ¬(c₁ = '\r' ∧ c₂ = '\n')) :
    splitRN (c₁ :: c₂ :: l) = consHead c₁ (splitRN (c₂ :: l)) := by
  simp [splitRN, h]

/-- `consHead` only touches the first piece. -/
theorem consHead_append (c : Char) (X Y : List (List Char)) (h : X ≠ []) :
    consHead c (X ++ Y) = consHead c X ++ Y := by
  cases X with
  | nil => exact absurd rfl h
  | cons a b => simp [consHead]

/-- Splitting distributes over a terminator occurrence: the terminator glued
between `a` and `b` is always a split point (its `'\r'` cannot be consumed by
an earlier match, which would need it to be a `'\n'`). -/
theorem splitRN_append_rn : ∀ a b : List Char,
    splitRN (a ++ '\r' :: '\n' :: b) = splitRN a ++ splitRN b := by
  intro a
  induction a using splitRN.induct with
  | case1 => intro b; simp [splitRN_cons_rn, splitRN]
  | case2 c =>
    intro b
    have hne : ¬(c = '\r' ∧ '\r' = '\n') := by
      rintro ⟨-, h⟩; exact absurd h (by decide)
    simp [splitRN, hne, consHead, splitRN_cons_rn]
  | case3 c₁ c₂ rest h ih =>
    intro b
    obtain ⟨rfl, rfl⟩ := h
    rw [List.cons_append, List.cons_append, splitRN_cons_rn, ih, splitRN_cons_rn,
      List.cons_append]
  | case4 c₁ c₂ rest h ih =>
    intro b
    rw [List.cons_append, List.cons_append, splitRN_cons_other _ _ _ h,
      ← List.cons_append, ih, consHead_append _ _ _ (splitRN_ne_nil _),
      splitRN_cons_other _ _ _ h]

/-- A buffer ends with the terminator iff it is some prefix plus `"\r\n"`. -/
theorem endsWithRN_iff (l : List Char) :
    endsWithRN l = true ↔ ∃ a, l = a ++ ['\r', '\n'] := by
  constructor
  · intro h
    unfold endsWithRN at h
    rcases hrev : l.reverse with _ | ⟨c, _ | ⟨c', t⟩⟩ <;> rw [hrev] at h
    · simp at h
    · simp at h
    · simp only [Bool.and_eq_true, beq_iff_eq] at h
      obtain ⟨rfl, rfl⟩ := h
      refine ⟨t.reverse, ?_⟩
      have := congrArg List.reverse hrev
      simpa using this
  · rintro ⟨a, rfl⟩
    unfold endsWithRN
    rw [List.reverse_append]
    rfl

/-- The non-empty lines of a terminated buffer followed by more data are the
non-empty lines of each part. -/
theorem nonEmptyLines_append (a b : List Char) (h : endsWithRN a = true) :
    nonEmptyLines (a ++ b) = nonEmptyLines a ++ nonEmptyLines b := by
  obtain ⟨a₀, rfl⟩ := (endsWithRN_iff a).mp h
  have h1 : a₀ ++ ['\r', '\n'] ++ b = a₀ ++ '\r' :: '\n' :: b := by simp
  have h2 : a₀ ++ ['\r', '\n'] = a₀ ++ '\r' :: '\n' :: ([] : List Char) := rfl
  unfold nonEmptyLines
  rw [h1, splitRN_append_rn, h2, splitRN_append_rn, List.filter_append, List.filter_append]
  simp [splitRN]

/-- If both a terminated prefix and the whole buffer end with the terminator,
so does the non-empty rest (a length-1 rest would force `'\n' = '\r'`). -/
theorem endsWithRN_suffix (a y : List Char) (ha : endsWithRN a = true)
    (hay : endsWithRN (a ++ y) = true) (hy : y ≠ []) : endsWithRN y = true := by
  obtain ⟨a₀, rfl⟩ := (endsWithRN_iff a).mp ha
  rcases hyr : y.reverse with _ | ⟨d, _ | ⟨e, t⟩⟩
  · exact absurd (by simpa using congrArg List.reverse hyr) hy
  · exfalso
    have hy1 : y = [d] := by simpa using congrArg List.reverse hyr
    subst hy1
    unfold endsWithRN at hay
    rw [List.reverse_append] at hay
    simp [List.reverse_append] at hay
  · unfold endsWithRN at hay ⊢
    rw [hyr]
    rw [List.reverse_append, hyr] at hay
    simp only [List.cons_append] at hay
    simpa using hay

/-- Feeding only empty chunks from an empty buffer yields nothing. -/
theorem feed_nil_chunks : ∀ cs : List (List Char), cs.flatten = [] →
    feedChunks [] cs = ([], []) := by
  intro cs
  induction cs with
  | nil => intro _; rfl
  | cons c cs ih =>
    intro h
    rw [List.flatten_cons] at h
    obtain ⟨rfl, h2⟩ := List.append_eq_nil.mp h
    have : data_received [] [] = ([], []) := rfl
    simp [feedChunks, this, ih h2]

/-- Chunk-boundary invariance, generalized over the starting buffer: if the
pending buffer does not itself end with the terminator and the total input
does, delivering it in any chunks flushes everything, yielding exactly the
non-empty lines of the total input. -/
theorem feed_gen : ∀ (cs : List (List Char)) (buf : List Char),
    (buf = [] ∨ endsWithRN buf = false) →
    endsWithRN (buf ++ cs.flatten) = true →
    feedChunks buf cs = ([], nonEmptyLines (buf ++ cs.flatten)) := by
  intro cs
  induction cs with
  | nil =>
    intro buf hbuf h
    rw [List.flatten_nil, List.append_nil] at h
    rcases hbuf with rfl | hbuf
    · exact absurd h (by decide)
    · rw [h] at hbuf; cases hbuf
  | cons c cs ih =>
    intro buf hbuf h
    rw [List.flatten_cons, ← List.append_assoc] at h
    by_cases hb : endsWithRN (buf ++ c) = true
    · have hdr : data_received buf c = ([], nonEmptyLines (buf ++ c)) := by
        simp [data_received, hb]
      by_cases hfl : cs.flatten = []
      · simp [feedChunks, hdr, feed_nil_chunks cs hfl, hfl]
      · have hfl2 : endsWithRN cs.flatten = true :=
          endsWithRN_suffix (buf ++ c) cs.flatten hb h hfl
        have ihr := ih [] (Or.inl rfl) (by simpa using hfl2)
        simp [feedChunks, hdr, ihr, nonEmptyLines_append (buf ++ c) cs.flatten hb,
          ← List.append_assoc]
    · have hdr : data_received buf c = (buf ++ c, []) := by
        simp [data_received, hb]
      have ihr := ih (buf ++ c) (Or.inr (by simpa using hb)) h
      simp [feedChunks, hdr, ihr]

/-! ### Flow-control lemmas -/

/-- Field equations for `sendRequest`. -/
theorem sendRequest_fields (r : Packet) (now : Nat) (s : ProtoState) :
    (sendRequest r now s).out_pending = s.out_pending + 1 ∧
    (sendRequest r now s).out_queue =
      (if s.out_pending = 0 then s.out_queue else s.out_queue ++ [r]) ∧
    (sendRequest r now s).written =
      (if s.out_pending = 0 then s.written ++ [r] else s.written) ∧
    (sendRequest r now s).msgID = s.msgID ∧
    (sendRequest r now s).last_data_received = s.last_data_received ∧
    (sendRequest r now s).last_keepalive_sent = s.last_keepalive_sent ∧
    (sendRequest r now s).events = s.events ∧
    (sendRequest r now s).transportClosing = s.transportClosing ∧
    (sendRequest r now s).closeCount = s.closeCount ∧
    (sendRequest r now s).last_flow_control_activity = some now := by
  unfold sendRequest writeToTransport
  by_cases hp : s.out_pending = 0 <;> simp [hp]

/-- Field equations for `responseReceived`. -/
theorem responseReceived_fields (now : Nat) (s : ProtoState) :
    (responseReceived now s).out_pending =
      (if s.out_pending ≠ 0 then s.out_pending - 1 else s.out_pending) ∧
    (responseReceived now s).out_queue = s.out_queue.tail ∧
    (responseReceived now s).written = s.written ++ s.out_queue.take 1 ∧
    (responseReceived now s).msgID = s.msgID ∧
    (responseReceived now s).last_data_received = s.last_data_received ∧
    (responseReceived now s).last_keepalive_sent = s.last_keepalive_sent ∧
    (responseReceived now s).events = s.events ++ [PEvent.flowRelease] ∧
    (responseReceived now s).transportClosing = s.transportClosing ∧
    (responseReceived now s).closeCount = s.closeCount ∧
    (responseReceived now s).last_flow_control_activity = some now := by
  unfold responseReceived writeToTransport
  cases hq : s.out_queue <;> by_cases hp : s.out_pending ≠ 0 <;> simp [hq, hp]

/-- One flow-control call preserves `queue-length ≤ pending ≤ queue-length + 1`
and appends newly submitted requests to `written ++ queue` at the end. -/
theorem flowStep_facts (s : ProtoState) (op : FlowOp)
    (h1 : (s.out_queue.length : Int) ≤ s.out_pending)
    (h2 : s.out_pending ≤ s.out_queue.length + 1) :
    ((flowStep s op).out_queue.length : Int) ≤ (flowStep s op).out_pending ∧
    (flowStep s op).out_pending ≤ (flowStep s op).out_queue.length + 1 ∧
    (flowStep s op).written ++ (flowStep s op).out_queue =
      s.written ++ s.out_queue ++ sendsOf [op] := by
  cases op with
  | send r t =>
    obtain ⟨hA, hB, hC, -⟩ := sendRequest_fields r t s
    rw [show flowStep s (FlowOp.send r t) = sendRequest r t s from rfl, hA, hB, hC]
    by_cases hp : s.out_pending = 0
    · have hq : s.out_queue = [] := List.length_eq_zero.mp (by omega)
      simp [hp, hq, sendsOf]
    · simp only [if_neg hp, sendsOf]
      refine ⟨?_, ?_, by simp⟩ <;> simp <;> omega
  | resp t =>
    obtain ⟨hA, hB, hC, -⟩ := responseReceived_fields t s
    rw [show flowStep s (FlowOp.resp t) = responseReceived t s from rfl, hA, hB, hC]
    cases hq : s.out_queue with
    | nil =>
      rw [hq] at h1 h2
      simp only [List.tail_nil, List.take_nil, List.append_nil, sendsOf]
      by_cases hp : s.out_pending ≠ 0 <;> simp [hp] at h1 h2 ⊢ <;> omega
    | cons r rest =>
      rw [hq] at h1 h2
      have hp : s.out_pending ≠ 0 := by simp at h1 h2; omega
      simp only [if_pos hp, List.tail_cons, List.take_cons, List.take_zero, sendsOf]
      refine ⟨?_, ?_, by simp⟩ <;> simp at h1 h2 ⊢ <;> omega

/-- Running any flow-control trace preserves the invariant and accumulates
the submitted requests, in order, in `written ++ queue`. -/
theorem runFlow_inv : ∀ (ops : List FlowOp) (s : ProtoState),
    (s.out_queue.length : Int) ≤ s.out_pending →
    s.out_pending ≤ s.out_queue.length + 1 →
    ((runFlow s ops).out_queue.length : Int) ≤ (runFlow s ops).out_pending ∧
    (runFlow s ops).out_pending ≤ (runFlow s ops).out_queue.length + 1 ∧
    (runFlow s ops).written ++ (runFlow s ops).out_queue =
      s.written ++ s.out_queue ++ sendsOf ops := by
  intro ops
  induction ops with
  | nil => intro s h1 h2; exact ⟨h1, h2, by simp [runFlow, sendsOf]⟩
  | cons op ops ih =>
    intro s h1 h2
    obtain ⟨g1, g2, g3⟩ := flowStep_facts s op h1 h2
    obtain ⟨k1, k2, k3⟩ := ih (flowStep s op) g1 g2
    refine ⟨k1, k2, ?_⟩
    rw [show runFlow s (op :: ops) = runFlow (flowStep s op) ops from rfl, k3, g3]
    cases op <;> simp [sendsOf]

/-- With at least one request already pending, every further `sendRequest`
only queues: nothing new is written and the queue grows in submission order. -/
theorem sendMany_queued : ∀ (rts : List (Packet × Nat)) (s : ProtoState),
    1 ≤ s.out_pending →
    (sendMany s rts).written = s.written ∧
    (sendMany s rts).out_queue = s.out_queue ++ rts.map Prod.fst ∧
    (sendMany s rts).out_pending = s.out_pending + rts.length := by
  intro rts
  induction rts with
  | nil => intro s h; simp [sendMany]
  | cons rt rest ih =>
    intro s h
    obtain ⟨r, t⟩ := rt
    have hp : ¬s.out_pending = 0 := by omega
    obtain ⟨hA, hB, hC, -⟩ := sendRequest_fields r t s
    rw [if_neg hp] at hB hC
    have h1 : 1 ≤ (sendRequest r t s).out_pending := by rw [hA]; omega
    obtain ⟨k1, k2, k3⟩ := ih (sendRequest r t s) h1
    have hrw : sendMany s ((r, t) :: rest) = sendMany (sendRequest r t s) rest := rfl
    refine ⟨?_, ?_, ?_⟩
    · rw [hrw, k1, hC]
    · rw [hrw, k2, hB]; simp
    · rw [hrw, k3, hA]; simp; ring

/-- Draining: when pending exceeds the queue length by exactly one, that many
`responseReceived` calls write out the whole queue in order and end with an
empty queue and a zero pending counter. -/
theorem respMany_drain : ∀ (ts : List Nat) (s : ProtoState),
    s.out_pending = (s.out_queue.length : Int) + 1 →
    ts.length = s.out_queue.length + 1 →
    (respMany s ts).out_pending = 0 ∧
    (respMany s ts).out_queue = [] ∧
    (respMany s ts).written = s.written ++ s.out_queue := by
  intro ts
  induction ts with
  | nil => intro s h1 h2; simp at h2
  | cons t ts ih =>
    intro s h1 h2
    obtain ⟨hA, hB, hC, -⟩ := responseReceived_fields t s
    have hrw : respMany s (t :: ts) = respMany (responseReceived t s) ts := rfl
    cases hq : s.out_queue with
    | nil =>
      rw [hq] at h1 h2
      simp at h1 h2
      subst h2
      have hp : s.out_pending ≠ 0 := by omega
      rw [if_pos hp] at hA
      have : respMany s [t] = responseReceived t s := rfl
      rw [this, hA, hB, hC, hq]
      refine ⟨by omega, by simp, by simp⟩
    | cons r rest =>
      rw [hq] at h1 h2
      have hp : s.out_pending ≠ 0 := by simp at h1; omega
      rw [if_pos hp] at hA
      have e1 : (responseReceived t s).out_pending =
          ((responseReceived t s).out_queue.length : Int) + 1 := by
        rw [hA, hB, hq]; simp at h1 ⊢; omega
      have e2 : ts.length = (responseReceived t s).out_queue.length + 1 := by
        rw [hB, hq]; simp at h2 ⊢; omega
      obtain ⟨k1, k2, k3⟩ := ih (responseReceived t s) e1 e2
      rw [hrw]
      refine ⟨k1, k2, ?_⟩
      rw [k3, hC, hB, hq]
      simp

/-! ### Health-monitor lemmas -/

/-- Field equations for `sendCmd` (via `sendRequest` on the bumped state). -/
theorem sendCmd_fields (cmd : String) (extra : List (String × JValue)) (now : Nat)
    (s : ProtoState) :
    (sendCmd cmd extra now s).1.out_pending = s.out_pending + 1 ∧
    (sendCmd cmd extra now s).1.last_data_received = s.last_data_received ∧
    (sendCmd cmd extra now s).1.transportClosing = s.transportClosing ∧
    (sendCmd cmd extra now s).1.closeCount = s.closeCount ∧
    (sendCmd cmd extra now s).1.msgID = s.msgID + 1 ∧
    (sendCmd cmd extra now s).1.last_keepalive_sent = s.last_keepalive_sent ∧
    (sendCmd cmd extra now s).1.events = s.events ∧
    (if s.out_pending = 0 then
      (sendCmd cmd extra now s).1.written = s.written ++ [sendCmdPacket cmd extra s] ∧
      (sendCmd cmd extra now s).1.out_queue = s.out_queue
    else
      (sendCmd cmd extra now s).1.written = s.written ∧
      (sendCmd cmd extra now s).1.out_queue = s.out_queue ++ [sendCmdPacket cmd extra s]) ∧
    (sendCmd cmd extra now s).2 = toString s.msgID := by
  obtain ⟨hA, hB, hC, hD, hE, hF, hG, hH, hI, hJ⟩ :=
    sendRequest_fields (sendCmdPacket cmd extra s) now { s with msgID := s.msgID + 1 }
  unfold sendCmd
  by_cases hp : s.out_pending = 0 <;>
    simp_all [hA, hB, hC, hD, hE, hF, hG, hH, hI, hJ]

/-- `keepaliveCheck` never touches the data timestamp, the transport, the
message-processing log, or the flow-activity-independent counters, and can
only increase the pending counter by one (when it sends the keepalive). -/
theorem keepaliveCheck_fields (now : Nat) (s : ProtoState) :
    ((keepaliveCheck now s).out_pending = s.out_pending ∨
      (keepaliveCheck now s).out_pending = s.out_pending + 1) ∧
    (keepaliveCheck now s).last_data_received = s.last_data_received ∧
    (keepaliveCheck now s).transportClosing = s.transportClosing ∧
    (keepaliveCheck now s).closeCount = s.closeCount := by
  unfold keepaliveCheck
  cases hk : s.last_keepalive_sent with
  | none => simp
  | some k =>
    by_cases hc : k ≠ 0 ∧ now - k > KEEPALIVE_INTERVAL
    · obtain ⟨hA, hB, hC, hD, -⟩ := sendCmd_fields "GetParamList" keepaliveExtra now s
      simp [hc, hA, hB, hC, hD]
    · simp [hc]

/-- `keepaliveCheck` is the identity when no keepalive is due. -/
theorem keepaliveCheck_not_due (now : Nat) (s : ProtoState)
    (h : ∀ k, s.last_keepalive_sent = some k → k = 0 ∨ now - k ≤ KEEPALIVE_INTERVAL) :
    keepaliveCheck now s = s := by
  unfold keepaliveCheck
  cases hk : s.last_keepalive_sent with
  | none => rfl
  | some k =>
    have hc : ¬(k ≠ 0 ∧ now - k > KEEPALIVE_INTERVAL) := by
      rcases h k hk with h0 | h0
      · rintro ⟨hne, -⟩; exact hne h0
      · rintro ⟨-, hgt⟩; omega
    simp [hc]

/-- `deadlockCheck` either leaves the state alone or resets the pending
counter and drains the queue; it never writes, closes, or touches timestamps
other than none. -/
theorem deadlockCheck_cases (now : Nat) (s : ProtoState) :
    deadlockCheck now s = s ∨
    deadlockCheck now s = { s with out_pending := 0, out_queue := [] } := by
  unfold deadlockCheck
  cases hk : s.last_flow_control_activity with
  | none => exact Or.inl rfl
  | some t =>
    by_cases hc : t ≠ 0 ∧ s.out_pending > 0 ∧ now - t > FLOW_CONTROL_TIMEOUT
    · exact Or.inr (by simp only [hk]; simp [hc])
    · exact Or.inl (by simp only [hk]; simp [hc])

/-- `deadlockCheck` fires exactly under the deadlock condition. -/
theorem deadlockCheck_fires (now : Nat) (s : ProtoState) (t : Nat)
    (h1 : s.last_flow_control_activity = some t) (h2 : t ≠ 0)
    (h3 : 0 < s.out_pending) (h4 : now - t > FLOW_CONTROL_TIMEOUT) :
    deadlockCheck now s = { s with out_pending := 0, out_queue := [] } := by
  unfold deadlockCheck
  rw [h1]
  simp [h2, h3, h4]

/-- `idleCheck` either does nothing or closes the transport and breaks. -/
theorem idleCheck_cases (now : Nat) (s : ProtoState) :
    idleCheck now s = (s, false) ∨ idleCheck now s = (closeTransport s, true) := by
  unfold idleCheck
  cases hk : s.last_data_received with
  | none => exact Or.inl rfl
  | some t =>
    by_cases hc : t ≠ 0 ∧ now - t > CONNECTION_IDLE_TIMEOUT
    · exact Or.inr (by simp only [hk]; simp [hc])
    · exact Or.inl (by simp only [hk]; simp [hc])

/-- `idleCheck` fires exactly under the idle condition. -/
theorem idleCheck_fires (now : Nat) (s : ProtoState) (d : Nat)
    (h1 : s.last_data_received = some d) (h2 : d ≠ 0)
    (h3 : now - d > CONNECTION_IDLE_TIMEOUT) :
    idleCheck now s = (closeTransport s, true) := by
  unfold idleCheck
  rw [h1]
  simp [h2, h3]

/-- A heartbeat iteration closes the transport at most once, and only when it
also breaks out of the loop. -/
theorem heartbeatTick_closeCount (now : Nat) (s : ProtoState) :
    (heartbeatTick now s).1.closeCount ≤ s.closeCount + 1 ∧
    ((heartbeatTick now s).2 = false →
      (heartbeatTick now s).1.closeCount = s.closeCount) := by
  unfold heartbeatTick
  by_cases hcl : s.transportClosing
  · simp [hcl]
  · simp only [hcl, if_false, Bool.false_eq_true]
    obtain ⟨-, -, -, k4⟩ := keepaliveCheck_fields now s
    have d4 : (deadlockCheck now (keepaliveCheck now s)).closeCount =
        (keepaliveCheck now s).closeCount := by
      rcases deadlockCheck_cases now (keepaliveCheck now s) with h | h <;> rw [h]
    rcases idleCheck_cases now (deadlockCheck now (keepaliveCheck now s)) with h | h <;>
      rw [h] <;> simp [closeTransport, d4, k4]

/-- Across a whole heartbeat loop, the transport is closed at most once: the
iteration that closes also breaks. -/
theorem heartbeatRun_closeCount : ∀ (ts : List Nat) (s : ProtoState),
    (heartbeatRun s ts).closeCount ≤ s.closeCount + 1 := by
  intro ts
  induction ts with
  | nil => intro s; simp [heartbeatRun]
  | cons t ts ih =>
    intro s
    obtain ⟨h1, h2⟩ := heartbeatTick_closeCount t s
    show (let (s', brk) := heartbeatTick t s
          if brk then s' else heartbeatRun s' ts).closeCount ≤ s.closeCount + 1
    cases hbrk : (heartbeatTick t s).2 with
    | true => simpa [hbrk] using h1
    | false =>
      have := ih (heartbeatTick t s).1
      rw [h2 hbrk] at this
      simpa [hbrk] using this

/-- When the idle condition holds at a wake-up on a live transport, that
iteration closes the transport (exactly one new `close()` call) and breaks. -/
theorem heartbeatTick_idle_fires (now : Nat) (s : ProtoState) (d : Nat)
    (hcl : s.transportClosing = false) (h1 : s.last_data_received = some d)
    (h2 : d ≠ 0) (h3 : now - d > CONNECTION_IDLE_TIMEOUT) :
    heartbeatTick now s =
      (closeTransport (deadlockCheck now (keepaliveCheck now s)), true) ∧
    (heartbeatTick now s).1.transportClosing = true ∧
    (heartbeatTick now s).1.closeCount = s.closeCount + 1 := by
  obtain ⟨-, k2, -, k4⟩ := keepaliveCheck_fields now s
  have d2 : (deadlockCheck now (keepaliveCheck now s)).last_data_received =
      (keepaliveCheck now s).last_data_received := by
    rcases deadlockCheck_cases now (keepaliveCheck now s) with h | h <;> rw [h]
  have d4 : (deadlockCheck now (keepaliveCheck now s)).closeCount =
      (keepaliveCheck now s).closeCount := by
    rcases deadlockCheck_cases now (keepaliveCheck now s) with h | h <;> rw [h]
  have hfire := idleCheck_fires now (deadlockCheck now (keepaliveCheck now s)) d
    (by rw [d2, k2, h1]) h2 h3
  have htick : heartbeatTick now s =
      (closeTransport (deadlockCheck now (keepaliveCheck now s)), true) := by
    unfold heartbeatTick
    rw [hcl]
    simpa using hfire
  refine ⟨htick, by rw [htick]; rfl, by rw [htick]; simp [closeTransport, d4, k4]⟩

/-- When the idle condition holds at the first wake-up of the remaining loop
on a live transport, the loop closes the transport once and terminates
immediately (later wake-up times are never processed). -/
theorem heartbeatRun_idle (now : Nat) (ts : List Nat) (s : ProtoState) (d : Nat)
    (hcl : s.transportClosing = false) (h1 : s.last_data_received = some d)
    (h2 : d ≠ 0) (h3 : now - d > CONNECTION_IDLE_TIMEOUT) :
    heartbeatRun s (now :: ts) = (heartbeatTick now s).1 ∧
    (heartbeatRun s (now :: ts)).transportClosing = true ∧
    (heartbeatRun s (now :: ts)).closeCount = s.closeCount + 1 := by
  obtain ⟨htick, hA, hB⟩ := heartbeatTick_idle_fires now s d hcl h1 h2 h3
  have hrun : heartbeatRun s (now :: ts) = (heartbeatTick now s).1 := by
    show (let (s', brk) := heartbeatTick now s
          if brk then s' else heartbeatRun s' ts) = (heartbeatTick now s).1
    rw [htick]
    rfl
  exact ⟨hrun, by rw [hrun]; exact hA, by rw [hrun]; exact hB⟩

/-- When the deadlock condition holds at a wake-up on a live transport and no
keepalive is due, that iteration resets the pending counter, drains the
queue, and writes nothing to the transport. -/
theorem heartbeatTick_deadlock_reset (now : Nat) (s : ProtoState) (t : Nat)
    (hcl : s.transportClosing = false)
    (ha : s.last_flow_control_activity = some t) (ht : t ≠ 0)
    (hp : 0 < s.out_pending) (hgt : now - t > FLOW_CONTROL_TIMEOUT)
    (hka : ∀ k, s.last_keepalive_sent = some k → k = 0 ∨ now - k ≤ KEEPALIVE_INTERVAL) :
    (heartbeatTick now s).1.out_pending = 0 ∧
    (heartbeatTick now s).1.out_queue = [] ∧
    (heartbeatTick now s).1.written = s.written := by
  have hk : keepaliveCheck now s = s := keepaliveCheck_not_due now s hka
  have hd : deadlockCheck now s = { s with out_pending := 0, out_queue := [] } :=
    deadlockCheck_fires now s t ha ht hp hgt
  have htick : (heartbeatTick now s).1 =
      (idleCheck now { s with out_pending := 0, out_queue := [] }).1 := by
    unfold heartbeatTick
    rw [if_neg (show ¬s.transportClosing = true by simp [hcl]), hk, hd]
  rw [htick]
  rcases idleCheck_cases now { s with out_pending := 0, out_queue := [] } with h | h <;>
    rw [h] <;> exact ⟨rfl, rfl, rfl⟩

/-- A heartbeat iteration keeps the pending counter non-negative. -/
theorem heartbeatTick_pending_nonneg (now : Nat) (s : ProtoState)
    (h : 0 ≤ s.out_pending) : 0 ≤ (heartbeatTick now s).1.out_pending := by
  unfold heartbeatTick
  by_cases hcl : s.transportClosing
  · simpa [hcl] using h
  · simp only [hcl, if_false, Bool.false_eq_true]
    obtain ⟨k1, -, -, -⟩ := keepaliveCheck_fields now s
    have h1 : 0 ≤ (keepaliveCheck now s).out_pending := by rcases k1 with h' | h' <;> omega
    have h2 : 0 ≤ (deadlockCheck now (keepaliveCheck now s)).out_pending := by
      rcases deadlockCheck_cases now (keepaliveCheck now s) with h' | h'
      · rw [h']; simpa using h1
      · rw [h']
    rcases idleCheck_cases now (deadlockCheck now (keepaliveCheck now s)) with h' | h' <;>
      rw [h'] <;> simpa using h2

/-- Any sequence of `sendRequest` / `responseReceived` / heartbeat iterations
keeps the pending counter non-negative. -/
theorem runFull_pending_nonneg : ∀ (ops : List FullOp) (s : ProtoState),
    0 ≤ s.out_pending → 0 ≤ (runFull s ops).out_pending := by
  intro ops
  induction ops with
  | nil => intro s h; exact h
  | cons op ops ih =>
    intro s h
    refine ih (fullStep s op) ?_
    cases op with
    | send r t =>
      obtain ⟨hA, -⟩ := sendRequest_fields r t s
      show 0 ≤ (sendRequest r t s).out_pending
      omega
    | resp t =>
      obtain ⟨hA, -⟩ := responseReceived_fields t s
      show 0 ≤ (responseReceived t s).out_pending
      rw [hA]
      by_cases hp : s.out_pending ≠ 0 <;> simp [hp] <;> omega
    | tick t => exact heartbeatTick_pending_nonneg t s h

/-! ### Message-id and envelope lemmas -/

/-- Assigning a different key does not change a lookup. -/
theorem lookupKey_insertKV_ne : ∀ (d : List (String × JValue)) (kv : String × JValue)
    (k : String), kv.1 ≠ k → lookupKey (insertKV d kv) k = lookupKey d k := by
  intro d
  induction d with
  | nil =>
    intro kv k h
    simp [insertKV, lookupKey, h]
  | cons p rest ih =>
    intro kv k h
    obtain ⟨k', v'⟩ := p
    by_cases hk : k' = kv.1
    · subst hk
      simp [insertKV, lookupKey, h]
    · simp only [insertKV, if_neg hk, lookupKey]
      by_cases he : k' = k
      · simp [he]
      · simp [he, ih kv k h]

/-- Updating with a dict containing none of key `k` does not change `k`'s
value. -/
theorem lookupKey_dictUpdate_not_mem : ∀ (e d : List (String × JValue)) (k : String),
    (∀ kv ∈ e, kv.1 ≠ k) → lookupKey (dictUpdate d e) k = lookupKey d k := by
  intro e
  induction e with
  | nil => intro d k h; rfl
  | cons kv rest ih =>
    intro d k h
    have h1 : kv.1 ≠ k := h kv (List.mem_cons_self kv rest)
    have h2 : ∀ p ∈ rest, p.1 ≠ k := fun p hp => h p (List.mem_cons_of_mem kv hp)
    show lookupKey (dictUpdate (insertKV d kv) rest) k = lookupKey d k
    rw [ih (insertKV d kv) k h2, lookupKey_insertKV_ne d kv k h1]

/-- When the caller's `extra` does not shadow "messageID", the envelope built
by `sendCmd` carries the generated counter value as its messageID. -/
theorem sendCmdPacket_messageID (cmd : String) (extra : List (String × JValue))
    (s : ProtoState) (h : ∀ kv ∈ extra, kv.1 ≠ "messageID") :
    lookupKey (sendCmdPacket cmd extra s) "messageID" =
      some (JValue.jStr (toString s.msgID)) := by
  unfold sendCmdPacket
  by_cases he : extra.isEmpty
  · simp [he, lookupKey]
  · simp only [he, if_false, Bool.false_eq_true]
    rw [lookupKey_dictUpdate_not_mem extra _ "messageID" h]
    simp [lookupKey]

/-- The ids returned by successive `sendCmd` calls are the decimal strings of
consecutive counter values starting from the current one. -/
theorem sendCmds_ids : ∀ (calls : List (String × List (String × JValue) × Nat))
    (s : ProtoState),
    (sendCmds s calls).2 = (List.range calls.length).map (fun i => toString (s.msgID + i)) := by
  intro calls
  induction calls with
  | nil => intro s; rfl
  | cons c rest ih =>
    intro s
    obtain ⟨cmd, extra, t⟩ := c
    obtain ⟨-, -, -, -, hE, -, -, -, hI⟩ := sendCmd_fields cmd extra t s
    have hrw : (sendCmds s ((cmd, extra, t) :: rest)).2 =
        (sendCmd cmd extra t s).2 :: (sendCmds (sendCmd cmd extra t s).1 rest).2 := rfl
    rw [hrw, hI, ih (sendCmd cmd extra t s).1, hE]
    rw [List.length_cons, List.range_succ_eq_map, List.map_cons, List.map_map]
    refine congrArg₂ _ (congrArg toString (by omega)) (List.map_congr_left fun i _ => ?_)
    simp only [Function.comp_apply]
    exact congrArg toString (by omega)

/-! ### Claim theorems -/

/-- C1: Flow-control one-in-transit invariant: along every sequence of
`sendRequest` / `responseReceived` calls from the initial state, the number
of transmitted-but-unanswered requests (`out_pending − queue length`) stays
between 0 and 1 — at most one request is on the wire — the transmitted
requests followed by the queued ones are exactly the submitted requests in
submission order, `sendRequest` writes to the transport only when the
in-flight count is 0, and `responseReceived` writes at most one queued
request per response. -/
theorem claim_C1_one_in_transit (t₀ : Nat) (ops : List FlowOp) :
    ((runFlow (connState t₀) ops).out_queue.length : Int) ≤
      (runFlow (connState t₀) ops).out_pending ∧
    (runFlow (connState t₀) ops).out_pending ≤
      (runFlow (connState t₀) ops).out_queue.length + 1 ∧
    (runFlow (connState t₀) ops).written ++ (runFlow (connState t₀) ops).out_queue =
      sendsOf ops ∧
    (∀ (r : Packet) (now : Nat) (s : ProtoState),
      (sendRequest r now s).written =
        if s.out_pending = 0 then s.written ++ [r] else s.written) ∧
    (∀ (now : Nat) (s : ProtoState),
      (responseReceived now s).written.length ≤ s.written.length + 1) := by
  obtain ⟨h1, h2, h3⟩ := runFlow_inv ops (connState t₀) (by simp [connState]) (by simp [connState])
  refine ⟨h1, h2, by simpa [connState] using h3, ?_, ?_⟩
  · intro r now s
    exact (sendRequest_fields r now s).2.2.1
  · intro now s
    have := (responseReceived_fields now s).2.2.1
    rw [this]
    simp only [List.length_append]
    have : (s.out_queue.take 1).length ≤ 1 := by
      rw [List.length_take]
      omega
    omega

/-- C2: Flow-controller FIFO progression: from the initial state, after
`N = rest.length + 1` calls to `sendRequest` with no responses, exactly the
first request has been written and the rest are queued in submission order
with `out_pending = N`; after `N` subsequent `responseReceived` calls the
queue is empty, the in-flight count is 0, and all `N` requests have been
written in submission order. -/
theorem claim_C2_fifo_progression (t₀ : Nat) (r : Packet) (t : Nat)
    (rest : List (Packet × Nat)) (ts : List Nat)
    (hlen : ts.length = rest.length + 1) :
    (sendMany (connState t₀) ((r, t) :: rest)).written = [r] ∧
    (sendMany (connState t₀) ((r, t) :: rest)).out_queue = rest.map Prod.fst ∧
    (sendMany (connState t₀) ((r, t) :: rest)).out_pending = (rest.length : Int) + 1 ∧
    (respMany (sendMany (connState t₀) ((r, t) :: rest)) ts).out_pending = 0 ∧
    (respMany (sendMany (connState t₀) ((r, t) :: rest)) ts).out_queue = [] ∧
    (respMany (sendMany (connState t₀) ((r, t) :: rest)) ts).written =
      r :: rest.map Prod.fst := by
  have hw0 : (sendRequest r t (connState t₀)).written = [r] := rfl
  have hq0 : (sendRequest r t (connState t₀)).out_queue = [] := rfl
  have hp0 : (sendRequest r t (connState t₀)).out_pending = 1 := rfl
  have hrw : sendMany (connState t₀) ((r, t) :: rest) =
      sendMany (sendRequest r t (connState t₀)) rest := rfl
  obtain ⟨k1, k2, k3⟩ := sendMany_queued rest (sendRequest r t (connState t₀))
    (by simp [hp0])
  have hw : (sendMany (connState t₀) ((r, t) :: rest)).written = [r] := by
    rw [hrw, k1, hw0]
  have hq : (sendMany (connState t₀) ((r, t) :: rest)).out_queue = rest.map Prod.fst := by
    rw [hrw, k2, hq0]; simp
  have hp : (sendMany (connState t₀) ((r, t) :: rest)).out_pending = (rest.length : Int) + 1 := by
    rw [hrw, k3, hp0]; ring
  obtain ⟨d1, d2, d3⟩ := respMany_drain ts (sendMany (connState t₀) ((r, t) :: rest))
    (by rw [hp, hq]; simp) (by rw [hq]; simpa using hlen)
  refine ⟨hw, hq, hp, d1, d2, ?_⟩
  rw [d3, hw, hq]
  rfl

/-- Witness for C2 at a concrete instance: two requests sent, then two
responses. -/
theorem claim_C2_witness :
    ([3, 4] : List Nat).length = [([("command", JValue.jStr "B")], 2)].length + 1 ∧
    (sendMany (connState 0)
      ((([("command", JValue.jStr "A")] : Packet), 1) ::
        [([("command", JValue.jStr "B")], 2)])).written =
      [[("command", JValue.jStr "A")]] ∧
    (respMany (sendMany (connState 0)
      ((([("command", JValue.jStr "A")] : Packet), 1) ::
        [([("command", JValue.jStr "B")], 2)])) [3, 4]).written =
      [("command", JValue.jStr "A")] :: [[("command", JValue.jStr "B")]] := by
  have h := claim_C2_fifo_progression 0 [("command", JValue.jStr "A")] 1
    [([("command", JValue.jStr "B")], 2)] [3, 4] (by decide)
  exact ⟨by decide, h.1, by simpa using h.2.2.2.2.2⟩

/-- C3 counterexample: the chunking `["a\r\n", "b"]` makes `data_received`
flush the line `"a"`, while the same bytes delivered as the single chunk
`"a\r\nb"` flush nothing (the buffer does not end with the terminator), so
the emitted message sequences differ. -/
theorem claim_C3_counterexample :
    List.flatten [['a', '\r', '\n'], ['b']] = ['a', '\r', '\n', 'b'] ∧
    (feedChunks [] [['a', '\r', '\n'], ['b']]).2 = [['a']] ∧
    (feedChunks [] [['a', '\r', '\n', 'b']]).2 = [] := by decide

/-- C3 (amended): chunk-boundary invariance holds for every byte sequence
that ends with the `"\r\n"` terminator: any chunking of it yields the same
message sequence as single-chunk delivery, namely the non-empty lines of the
whole sequence. -/
theorem claim_C3_chunk_invariance (cs : List (List Char))
    (h : endsWithRN cs.flatten = true) :
    (feedChunks [] cs).2 = (feedChunks [] [cs.flatten]).2 ∧
    (feedChunks [] cs).2 = nonEmptyLines cs.flatten := by
  have h1 := feed_gen cs [] (Or.inl rfl) (by simpa using h)
  have h2 := feed_gen [cs.flatten] [] (Or.inl rfl) (by simpa using h)
  rw [h1, h2]
  simp

/-- Witness for C3 at a concrete instance: `"a\r"` then `"\nb\r\n"`. -/
theorem claim_C3_witness :
    endsWithRN (List.flatten [['a', '\r'], ['\n', 'b', '\r', '\n']]) = true ∧
    (feedChunks [] [['a', '\r'], ['\n', 'b', '\r', '\n']]).2 =
      (feedChunks [] [List.flatten [['a', '\r'], ['\n', 'b', '\r', '\n']]]).2 ∧
    (feedChunks [] [['a', '\r'], ['\n', 'b', '\r', '\n']]).2 =
      nonEmptyLines (List.flatten [['a', '\r'], ['\n', 'b', '\r', '\n']]) := by
  have h := claim_C3_chunk_invariance [['a', '\r'], ['\n', 'b', '\r', '\n']] (by decide)
  exact ⟨by decide, h.1, h.2⟩

/-- C10: the in-flight counter never goes negative: every sequence of
`sendRequest`, `responseReceived` and heartbeat iterations from the initial
state keeps it ≥ 0; moreover `responseReceived` on a zero counter leaves it
at 0 and still transmits the queued head if one exists. -/
theorem claim_C10_pending_nonneg :
    (∀ (t₀ : Nat) (ops : List FullOp), 0 ≤ (runFull (connState t₀) ops).out_pending) ∧
    (∀ (now : Nat) (s : ProtoState), s.out_pending = 0 →
      (responseReceived now s).out_pending = 0) ∧
    (∀ (now : Nat) (s : ProtoState) (r : Packet) (q : List Packet),
      s.out_queue = r :: q → (responseReceived now s).written = s.written ++ [r]) := by
  refine ⟨?_, ?_, ?_⟩
  · intro t₀ ops
    exact runFull_pending_nonneg ops (connState t₀) (by simp [connState])
  · intro now s h
    have hA := (responseReceived_fields now s).1
    rw [hA, h]
    simp
  · intro now s r q h
    have hC := (responseReceived_fields now s).2.2.1
    rw [hC, h]
    rfl

/-- Witness for C10 at a concrete instance: a response arriving with a zero
counter and a queued request. -/
theorem claim_C10_witness :
    ({ connState 0 with out_queue := [[("command", JValue.jStr "Q")]] } :
      ProtoState).out_pending = 0 ∧
    (responseReceived 9 { connState 0 with
      out_queue := [[("command", JValue.jStr "Q")]] }).out_pending = 0 ∧
    (responseReceived 9 { connState 0 with
      out_queue := [[("command", JValue.jStr "Q")]] }).written =
      ({ connState 0 with out_queue := [[("command", JValue.jStr "Q")]] } :
        ProtoState).written ++ [[("command", JValue.jStr "Q")]] ∧
    0 ≤ (runFull (connState 0) [FullOp.resp 1, FullOp.tick 2]).out_pending := by
  refine ⟨by decide, ?_, ?_, ?_⟩
  · exact claim_C10_pending_nonneg.2.1 9
      { connState 0 with out_queue := [[("command", JValue.jStr "Q")]] } (by decide)
  · exact claim_C10_pending_nonneg.2.2 9
      { connState 0 with out_queue := [[("command", JValue.jStr "Q")]] }
      [("command", JValue.jStr "Q")] [] rfl
  · exact claim_C10_pending_nonneg.1 0 [FullOp.resp 1, FullOp.tick 2]

/-- C4 counterexample: in `preemptedState` at time 111 the claim's premise
holds (transport live, one request in flight, last flow-control activity at
time 20, so 91 > 45 time-units of silence), but the keepalive is also due
(last sent at time 10, 101 > 90), so the iteration first sends the keepalive
query — which bumps the in-flight count to 2, queues the query behind the
stuck request, and refreshes the activity timestamp — and the deadlock reset
does not fire: the tick ends with in-flight count 2 and two queued requests,
not 0 and an empty queue. -/
theorem claim_C4_counterexample :
    preemptedState.transportClosing = false ∧
    (0 : Int) < preemptedState.out_pending ∧
    preemptedState.last_flow_control_activity = some 20 ∧
    111 - 20 > FLOW_CONTROL_TIMEOUT ∧
    (heartbeatTick 111 preemptedState).1.out_pending = 2 ∧
    (heartbeatTick 111 preemptedState).1.out_queue.length = 2 := by
  refine ⟨rfl, by decide, rfl, by decide, by decide, by decide⟩

/-- C4 (amended): when the in-flight count is positive, the (non-zero)
flow-control activity timestamp is more than 45 time-units old, the transport
is live, and no keepalive is due at this wake-up (its timestamp is zero or at
most 90 time-units old), a single heartbeat iteration resets the in-flight
count to 0 and empties the pending queue without writing anything to the
transport. -/
theorem claim_C4_deadlock_reset (now : Nat) (s : ProtoState) (t : Nat)
    (hcl : s.transportClosing = false)
    (ha : s.last_flow_control_activity = some t) (ht : t ≠ 0)
    (hp : 0 < s.out_pending) (hgt : now - t > FLOW_CONTROL_TIMEOUT)
    (hka : ∀ k, s.last_keepalive_sent = some k → k = 0 ∨ now - k ≤ KEEPALIVE_INTERVAL) :
    (heartbeatTick now s).1.out_pending = 0 ∧
    (heartbeatTick now s).1.out_queue = [] ∧
    (heartbeatTick now s).1.written = s.written :=
  heartbeatTick_deadlock_reset now s t hcl ha ht hp hgt hka

/-- Witness for C4 at a concrete instance: the stuck state with a recent
keepalive. -/
theorem claim_C4_witness :
    deadlockedState.transportClosing = false ∧
    (0 : Int) < deadlockedState.out_pending ∧
    111 - 20 > FLOW_CONTROL_TIMEOUT ∧
    deadlockedState.last_keepalive_sent = some 60 ∧
    111 - 60 ≤ KEEPALIVE_INTERVAL ∧
    (heartbeatTick 111 deadlockedState).1.out_pending = 0 ∧
    (heartbeatTick 111 deadlockedState).1.out_queue = [] ∧
    (heartbeatTick 111 deadlockedState).1.written = deadlockedState.written := by
  have h := claim_C4_deadlock_reset 111 deadlockedState 20 rfl rfl (by decide)
    (by decide) (by decide)
    (by
      intro k hk
      simp [deadlockedState, preemptedState, connState] at hk
      subst hk
      right
      decide)
  exact ⟨rfl, by decide, by decide, rfl, by decide, h.1, h.2.1, h.2.2⟩

/-- C8: idle-timeout closes exactly once: if at a wake-up on a live transport
no data has been received for more than 300 time-units, that iteration closes
the transport (one `close()` call) and terminates the loop, ignoring all
later wake-ups; and over any whole heartbeat loop the transport is closed at
most once. -/
theorem claim_C8_idle_close_once :
    (∀ (now : Nat) (ts : List Nat) (s : ProtoState) (d : Nat),
      s.transportClosing = false → s.last_data_received = some d → d ≠ 0 →
      now - d > CONNECTION_IDLE_TIMEOUT →
      heartbeatRun s (now :: ts) = (heartbeatTick now s).1 ∧
      (heartbeatRun s (now :: ts)).transportClosing = true ∧
      (heartbeatRun s (now :: ts)).closeCount = s.closeCount + 1) ∧
    (∀ (ts : List Nat) (s : ProtoState),
      (heartbeatRun s ts).closeCount ≤ s.closeCount + 1) :=
  ⟨fun now ts s d h1 h2 h3 h4 => heartbeatRun_idle now ts s d h1 h2 h3 h4,
   fun ts s => heartbeatRun_closeCount ts s⟩

/-- Witness for C8 at a concrete instance: connected at time 5, first
wake-up at time 400 after total silence. -/
theorem claim_C8_witness :
    (connState 5).transportClosing = false ∧
    400 - 5 > CONNECTION_IDLE_TIMEOUT ∧
    (heartbeatRun (connState 5) [400, 430]).transportClosing = true ∧
    (heartbeatRun (connState 5) [400, 430]).closeCount = (connState 5).closeCount + 1 ∧
    (heartbeatRun (connState 5) [430]).closeCount ≤ (connState 5).closeCount + 1 := by
  have h := claim_C8_idle_close_once.1 400 [430] (connState 5) 5 rfl rfl
    (by decide) (by decide)
  exact ⟨rfl, by decide, h.2.1, h.2.2, claim_C8_idle_close_once.2 [430] (connState 5)⟩

/-- C7: message-ID generation: `connection_made` resets the counter to 1;
within one connection the ids returned by successive `sendCmd` calls are the
decimal strings "1", "2", … (the counter increases by exactly 1 per call),
and when the caller's `extra` does not contain a "messageID" key, the
returned id is exactly the messageID value of the serialized envelope. -/
theorem claim_C7_msg_ids :
    (∀ (t₀ : Nat) (s₀ : ProtoState), (connection_made t₀ s₀).msgID = 1) ∧
    (∀ (t₀ : Nat) (s₀ : ProtoState) (calls : List (String × List (String × JValue) × Nat)),
      (sendCmds (connection_made t₀ s₀) calls).2 =
        (List.range calls.length).map (fun i => toString (1 + i))) ∧
    (∀ (cmd : String) (extra : List (String × JValue)) (now : Nat) (s : ProtoState),
      (sendCmd cmd extra now s).2 = toString s.msgID ∧
      (sendCmd cmd extra now s).1.msgID = s.msgID + 1) ∧
    (∀ (cmd : String) (extra : List (String × JValue)) (now : Nat) (s : ProtoState),
      (∀ kv ∈ extra, kv.1 ≠ "messageID") →
      lookupKey (sendCmdPacket cmd extra s) "messageID" =
        some (JValue.jStr ((sendCmd cmd extra now s).2))) := by
  refine ⟨fun t₀ s₀ => rfl, ?_, ?_, ?_⟩
  · intro t₀ s₀ calls
    exact sendCmds_ids calls (connection_made t₀ s₀)
  · intro cmd extra now s
    obtain ⟨-, -, -, -, hE, -, -, -, hI⟩ := sendCmd_fields cmd extra now s
    exact ⟨hI, hE⟩
  · intro cmd extra now s h
    obtain ⟨-, -, -, -, -, -, -, -, hI⟩ := sendCmd_fields cmd extra now s
    rw [hI]
    exact sendCmdPacket_messageID cmd extra s h

/-- Witness for C7 at a concrete instance: two commands after a fresh
connection return ids "1" and "2", and the envelope of a command with a
non-conflicting extra carries the returned id. -/
theorem claim_C7_witness :
    (connection_made 3 (connState 0)).msgID = 1 ∧
    (sendCmds (connection_made 3 (connState 0))
      [("GetQuery", [], 1), ("GetParamList", [], 2)]).2 = ["1", "2"] ∧
    (∀ kv ∈ [(("condition" : String), JValue.jStr "X")], kv.1 ≠ "messageID") ∧
    lookupKey (sendCmdPacket "GetHardwareDefinition" [("condition", JValue.jStr "X")]
        (connState 0)) "messageID" =
      some (JValue.jStr ((sendCmd "GetHardwareDefinition" [("condition", JValue.jStr "X")]
        4 (connState 0)).2)) := by
  refine ⟨claim_C7_msg_ids.1 3 (connState 0), ?_, by decide, ?_⟩
  · rw [claim_C7_msg_ids.2.1 3 (connState 0) [("GetQuery", [], 1), ("GetParamList", [], 2)]]
    decide
  · exact claim_C7_msg_ids.2.2.2 "GetHardwareDefinition" [("condition", JValue.jStr "X")]
      4 (connState 0) (by decide)

/-- C9: a caller-supplied `extra` containing a "messageID" key overrides the
generated envelope: the serialized packet carries the extra's messageID value
("999"), it is the packet actually transmitted, yet `sendCmd` still returns
the generated counter string "1", which differs from the id actually sent. -/
theorem claim_C9_extra_overrides :
    (sendCmd "SETPARAMLIST" [("messageID", JValue.jStr "999")] 7 (connState 3)).2 = "1" ∧
    lookupKey (sendCmdPacket "SETPARAMLIST" [("messageID", JValue.jStr "999")] (connState 3))
      "messageID" = some (JValue.jStr "999") ∧
    (sendCmd "SETPARAMLIST" [("messageID", JValue.jStr "999")] 7 (connState 3)).1.written =
      [sendCmdPacket "SETPARAMLIST" [("messageID", JValue.jStr "999")] (connState 3)] ∧
    ("999" : String) ≠ "1" := by
  refine ⟨rfl, rfl, rfl, by decide⟩

/-- C6: response-triggered flow-control release: for a well-formed message
(a JSON object with messageID and command fields), `processMessage` runs
`responseReceived` iff the "response" value is present and truthy — only its
truthiness matters — and this release is logged before the hand-off of the
message to the controller; the flow-control fields change exactly as
`responseReceived` changes them, and not at all for a non-truthy response. -/
theorem claim_C6_response_release (fields : List (String × JValue)) (mid cmd : JValue)
    (ctrl : CtrlBehavior) (now : Nat) (s : ProtoState)
    (hmid : lookupKey fields "messageID" = some mid)
    (hcmd : lookupKey fields "command" = some cmd) :
    (processMessage (ParseResult.value (JValue.jObj fields)) ctrl now s).events =
      s.events ++
        (if pyTruthy (lookupKey fields "response") then
          [PEvent.flowRelease, PEvent.received mid cmd (lookupKey fields "response")]
        else [PEvent.received mid cmd (lookupKey fields "response")]) ∧
    (processMessage (ParseResult.value (JValue.jObj fields)) ctrl now s).out_pending =
      (if pyTruthy (lookupKey fields "response") then (responseReceived now s).out_pending
       else s.out_pending) ∧
    (processMessage (ParseResult.value (JValue.jObj fields)) ctrl now s).out_queue =
      (if pyTruthy (lookupKey fields "response") then (responseReceived now s).out_queue
       else s.out_queue) ∧
    (processMessage (ParseResult.value (JValue.jObj fields)) ctrl now s).written =
      (if pyTruthy (lookupKey fields "response") then (responseReceived now s).written
       else s.written) := by
  obtain ⟨-, -, -, -, -, -, hG, -⟩ := responseReceived_fields now s
  simp only [processMessage, pyGetItem, dictGet, hmid, hcmd]
  by_cases htr : pyTruthy (lookupKey fields "response") <;> cases ctrl <;>
    simp [htr, closeTransport, hG]

/-- Witness for C6 at a concrete instance: a response message with a truthy
"response" value records the flow-control release before the controller
hand-off. -/
theorem claim_C6_witness :
    lookupKey [(("messageID" : String), JValue.jStr "5"),
        ("command", JValue.jStr "SendQuery"), ("response", JValue.jStr "200")]
      "messageID" = some (JValue.jStr "5") ∧
    (processMessage (ParseResult.value (JValue.jObj
        [("messageID", JValue.jStr "5"), ("command", JValue.jStr "SendQuery"),
          ("response", JValue.jStr "200")])) CtrlBehavior.ok 3 (connState 0)).events =
      [PEvent.flowRelease, PEvent.received (JValue.jStr "5") (JValue.jStr "SendQuery")
        (some (JValue.jStr "200"))] := by
  refine ⟨rfl, ?_⟩
  have h := (claim_C6_response_release
    [("messageID", JValue.jStr "5"), ("command", JValue.jStr "SendQuery"),
      ("response", JValue.jStr "200")]
    (JValue.jStr "5") (JValue.jStr "SendQuery") CtrlBehavior.ok 3 (connState 0) rfl rfl).1
  exact h

/-- C5 (amended): message-processing error taxonomy as implemented: malformed
JSON is dropped with the state unchanged (transport stays open); a JSON
object missing messageID or command is dropped with the state unchanged; a
valid JSON message that is not an object raises `TypeError` inside the `try`
and hits the generic handler, which closes the transport; a controller
exception of an unexpected class also closes the transport; but a controller
`KeyError` or `JSONDecodeError` is swallowed by the earlier handlers and the
transport stays open. -/
theorem claim_C5_error_taxonomy (ctrl : CtrlBehavior) (now : Nat) (s : ProtoState) :
    processMessage ParseResult.jsonError ctrl now s = s ∧
    (∀ fields, lookupKey fields "messageID" = none ∨ lookupKey fields "command" = none →
      processMessage (ParseResult.value (JValue.jObj fields)) ctrl now s = s) ∧
    (∀ v, isJObj v = false →
      processMessage (ParseResult.value v) ctrl now s = closeTransport s) ∧
    (∀ fields mid cmd, lookupKey fields "messageID" = some mid →
      lookupKey fields "command" = some cmd → ctrl = CtrlBehavior.raiseOther →
      (processMessage (ParseResult.value (JValue.jObj fields)) ctrl now s).transportClosing
        = true) ∧
    (∀ fields mid cmd, lookupKey fields "messageID" = some mid →
      lookupKey fields "command" = some cmd → ctrl ≠ CtrlBehavior.raiseOther →
      (processMessage (ParseResult.value (JValue.jObj fields)) ctrl now s).transportClosing
        = s.transportClosing) := by
  obtain ⟨-, -, -, -, -, -, -, hH, -⟩ := responseReceived_fields now s
  refine ⟨rfl, ?_, ?_, ?_, ?_⟩
  · intro fields h
    cases hmid : lookupKey fields "messageID" with
    | none => simp [processMessage, pyGetItem, hmid]
    | some mid =>
      rcases h with hm | hc
      · rw [hmid] at hm; cases hm
      · simp [processMessage, pyGetItem, hmid, hc]
  · intro v hv
    cases v <;> simp_all [processMessage, pyGetItem, isJObj]
  · intro fields mid cmd hmid hcmd hctrl
    subst hctrl
    simp only [processMessage, pyGetItem, dictGet, hmid, hcmd]
    by_cases htr : pyTruthy (lookupKey fields "response") <;> simp [htr, closeTransport]
  · intro fields mid cmd hmid hcmd hctrl
    simp only [processMessage, pyGetItem, dictGet, hmid, hcmd]
    cases ctrl with
    | raiseOther => exact absurd rfl hctrl
    | ok =>
      by_cases htr : pyTruthy (lookupKey fields "response") <;> simp [htr, hH]
    | raiseJsonDecodeError =>
      by_cases htr : pyTruthy (lookupKey fields "response") <;> simp [htr, hH]
    | raiseKeyError =>
      by_cases htr : pyTruthy (lookupKey fields "response") <;> simp [htr, hH]

/-- C5 counterexample: the valid JSON message `[1]` has no messageID field,
so by the claim it should be logged and dropped with the transport left open;
instead `msg["messageID"]` on a list raises `TypeError`, which falls through
to the generic handler, and the code closes the transport. -/
theorem claim_C5_counterexample :
    isJObj (JValue.jArr [JValue.jNum 1]) = false ∧
    (connState 1).transportClosing = false ∧
    (processMessage (ParseResult.value (JValue.jArr [JValue.jNum 1])) CtrlBehavior.ok 5
      (connState 1)).transportClosing = true := ⟨rfl, rfl, rfl⟩

/-- Witness for C5 at a concrete instance: a dropped malformed message, a
dropped object missing its fields, a closing non-object, and a closing
controller failure. -/
theorem claim_C5_witness :
    processMessage ParseResult.jsonError CtrlBehavior.ok 2 (connState 1) = connState 1 ∧
    processMessage (ParseResult.value (JValue.jObj [("command", JValue.jStr "X")]))
      CtrlBehavior.ok 2 (connState 1) = connState 1 ∧
    processMessage (ParseResult.value JValue.jNull) CtrlBehavior.ok 2 (connState 1) =
      closeTransport (connState 1) ∧
    (processMessage (ParseResult.value (JValue.jObj
        [("messageID", JValue.jStr "1"), ("command", JValue.jStr "X")]))
      CtrlBehavior.raiseOther 2 (connState 1)).transportClosing = true ∧
    (processMessage (ParseResult.value (JValue.jObj
        [("messageID", JValue.jStr "1"), ("command", JValue.jStr "X")]))
      CtrlBehavior.raiseKeyError 2 (connState 1)).transportClosing =
      (connState 1).transportClosing := by
  have h := claim_C5_error_taxonomy CtrlBehavior.ok 2 (connState 1)
  have h2 := claim_C5_error_taxonomy CtrlBehavior.raiseOther 2 (connState 1)
  have h3 := claim_C5_error_taxonomy CtrlBehavior.raiseKeyError 2 (connState 1)
  refine ⟨h.1, ?_, ?_, ?_, ?_⟩
  · exact h.2.1 [("command", JValue.jStr "X")] (Or.inl rfl)
  · exact h.2.2.1 JValue.jNull rfl
  · exact h2.2.2.2.1 [("messageID", JValue.jStr "1"), ("command", JValue.jStr "X")]
      (JValue.jStr "1") (JValue.jStr "X") rfl rfl rfl
  · exact h3.2.2.2.2 [("messageID", JValue.jStr "1"), ("command", JValue.jStr "X")]
      (JValue.jStr "1") (JValue.jStr "X") rfl rfl (by intro hx; cases hx)
